import Mathlib

/-!
Verification of the SRT subtitle validation core of the Subtitle-Translator
repository: the parser `parse_srt_file` and the validator
`validate_subtitle_pair` from `validation_utils.py`, and the auxiliary
regex-based parser `parse_srt` from `srt_utils.py`.

Python strings are modelled as Lean `String` (lists of characters);
Python `str.strip` / `str.rstrip` / `str.isdigit` are modelled over the
ASCII whitespace and digit classes, which is what every input exercised
here uses.  Python `float` arithmetic on the match rate is modelled
with exact rationals `ℚ`; the quantities involved are small integer
ratios, so the modelled values coincide with the floating-point ones.
-/

/-- ASCII whitespace, the characters matched by Python's `str.strip`
and by the regex class `\s` on the inputs considered here. -/
def isSpaceChar (c : Char) : Bool :=
  c == ' ' || c == '\t' || c == '\n' || c == '\r' || c == '\x0b' || c == '\x0c'

/-- ASCII decimal digit, the characters matched by `\d` and (on ASCII
input) by Python's `str.isdigit`. -/
def isDigitChar (c : Char) : Bool :=
  48 ≤ c.toNat && c.toNat ≤ 57

/-- Python `str.strip()`: drop leading and trailing whitespace. -/
def pyStrip (s : String) : String :=
  String.mk (((s.toList.dropWhile isSpaceChar).reverse.dropWhile isSpaceChar).reverse)

/-- Python `str.rstrip()`: drop trailing whitespace. -/
def pyRstrip (s : String) : String :=
  String.mk ((s.toList.reverse.dropWhile isSpaceChar).reverse)

/-- Python `str.isdigit()` (ASCII digits): nonempty and all digits. -/
def pyIsDigit (s : String) : Bool :=
  !s.toList.isEmpty && s.toList.all isDigitChar

/-- Python `int(s)` on a string of ASCII digits. -/
def pyInt (s : String) : Nat :=
  s.toList.foldl (fun a c => a * 10 + (c.toNat - 48)) 0

/-- The two sequential replaces `text.replace("\r\n","\n").replace("\r","\n")`
at the top of `parse_srt_file`: every CRLF pair collapses to LF and every
remaining CR becomes LF. -/
def normalizeNewlines : List Char → List Char
  | [] => []
  | '\r' :: '\n' :: rest => '\n' :: normalizeNewlines rest
  | '\r' :: rest => '\n' :: normalizeNewlines rest
  | c :: rest => c :: normalizeNewlines rest

/-- Python `text.split("\n")` on a character list: the empty string
splits to `[""]`, a trailing newline yields a trailing empty line. -/
def splitLines : List Char → List (List Char)
  | [] => [[]]
  | c :: rest =>
    if c == '\n' then [] :: splitLines rest
    else
      match splitLines rest with
      | [] => [[c]]
      | l :: ls => (c :: l) :: ls

/-- One subtitle caption unit (`SubtitleBlock` dataclass in
`validation_utils.py`). -/
structure SubtitleBlock where
  index : Option Nat
  start_time : String
  end_time : String
  text_lines : List String
  line_number : Nat
deriving DecidableEq

/-- Property `SubtitleBlock.has_text`: some text line is non-blank after
stripping. -/
def SubtitleBlock.has_text (b : SubtitleBlock) : Bool :=
  b.text_lines.any (fun l => pyStrip l != "")

/-- Property `SubtitleBlock.text_preview`: first text line, stripped,
truncated to 80 characters; empty string when there are no lines. -/
def SubtitleBlock.text_preview (b : SubtitleBlock) : String :=
  match b.text_lines with
  | [] => ""
  | l :: _ => String.mk ((pyStrip l).toList.take 80)

/-- Exactly `n` digits from the front of the list, with the rest. -/
def takeDigitsN : Nat → List Char → Option (List Char × List Char)
  | 0, cs => some ([], cs)
  | _ + 1, [] => none
  | n + 1, c :: cs =>
    if isDigitChar c then
      match takeDigitsN n cs with
      | some (d, r) => some (c :: d, r)
      | none => none
    else none

/-- The timestamp shape `\d{2}:\d{2}:\d{2},\d{3}`; on success returns the
matched 12 characters rebuilt as `HH:MM:SS,mmm` (exactly how
`parse_timestamp_line` rebuilds its groups) together with the rest. -/
def parseTsGroup (cs : List Char) : Option (String × List Char) :=
  match takeDigitsN 2 cs with
  | none => none
  | some (h, r1) =>
    match r1 with
    | ':' :: r2 =>
      match takeDigitsN 2 r2 with
      | none => none
      | some (mi, r3) =>
        match r3 with
        | ':' :: r4 =>
          match takeDigitsN 2 r4 with
          | none => none
          | some (se, r5) =>
            match r5 with
            | ',' :: r6 =>
              match takeDigitsN 3 r6 with
              | none => none
              | some (ms, r7) =>
                some (String.mk (h ++ ':' :: mi ++ ':' :: se ++ ',' :: ms), r7)
            | _ => none
        | _ => none
    | _ => none

/-- `parse_timestamp_line`: strip the line, match it in full against
`^\d{2}:\d{2}:\d{2},\d{3}\s*-->\s*\d{2}:\d{2}:\d{2},\d{3}$` and return
the two timestamps. -/
def parse_timestamp_line (line : String) : Option (String × String) :=
  let cs := (pyStrip line).toList
  match parseTsGroup cs with
  | none => none
  | some (st, r1) =>
    match r1.dropWhile isSpaceChar with
    | '-' :: '-' :: '>' :: r3 =>
      match parseTsGroup (r3.dropWhile isSpaceChar) with
      | some (en, r5) => if r5.isEmpty then some (st, en) else none
      | none => none
    | _ => none

/-- Cursor state of the `parse_srt_file` scan loop: looking for a block
start, just past a numeric index line, or collecting text lines of an
open block. -/
inductive ParserState where
  | scanning : ParserState
  | afterIndex (idx : Nat) (ln : Nat) : ParserState
  | collecting (idx : Option Nat) (startT endT : String) (ln : Nat)
      (acc : List String) : ParserState

/-- The scan loop of `parse_srt_file`, one line per step; `n` is the
1-based number of the current line.  The Python loop advances its cursor
by at least one line per iteration, so it is exactly this automaton:
blank lines are skipped; a purely numeric line opens `afterIndex`; a
line after an index that is not a timestamp abandons the index; inside a
block, text is collected until a blank line, a numeric line whose
successor is a timestamp line (the one-line lookahead), or a timestamp
line, each of which closes the block. -/
def parseLoop : List String → Nat → ParserState → List SubtitleBlock → List SubtitleBlock
  | [], _, st, blocks =>
    match st with
    | .collecting idx s e ln acc => blocks ++ [⟨idx, s, e, acc, ln⟩]
    | _ => blocks
  | l :: rest, n, .scanning, blocks =>
    let c := pyStrip l
    if c == "" then parseLoop rest (n + 1) .scanning blocks
    else if pyIsDigit c then parseLoop rest (n + 1) (.afterIndex (pyInt c) n) blocks
    else
      match parse_timestamp_line c with
      | some (s, e) => parseLoop rest (n + 1) (.collecting none s e n []) blocks
      | none => parseLoop rest (n + 1) .scanning blocks
  | l :: rest, n, .afterIndex idx ln, blocks =>
    match parse_timestamp_line (pyStrip l) with
    | some (s, e) => parseLoop rest (n + 1) (.collecting (some idx) s e ln []) blocks
    | none => parseLoop rest (n + 1) .scanning blocks
  | l :: rest, n, .collecting idx s e ln acc, blocks =>
    let c := pyStrip l
    if c == "" then
      parseLoop rest (n + 1) .scanning (blocks ++ [⟨idx, s, e, acc, ln⟩])
    else if pyIsDigit c &&
        (match rest with
         | next :: _ => (parse_timestamp_line (pyStrip next)).isSome
         | [] => false) then
      parseLoop rest (n + 1) (.afterIndex (pyInt c) n) (blocks ++ [⟨idx, s, e, acc, ln⟩])
    else
      match parse_timestamp_line c with
      | some (s2, e2) =>
        parseLoop rest (n + 1) (.collecting none s2 e2 n []) (blocks ++ [⟨idx, s, e, acc, ln⟩])
      | none => parseLoop rest (n + 1) (.collecting idx s e ln (acc ++ [pyRstrip l])) blocks

/-- `parse_srt_file`: normalize newlines, split into lines, run the scan
loop. -/
def parse_srt_file (text : String) : List SubtitleBlock :=
  let lines := (splitLines (normalizeNewlines text.toList)).map String.mk
  parseLoop lines 1 .scanning []

/-- A value of the free-form `details` payload of a `ValidationIssue`:
the code only ever stores integers and strings there. -/
inductive Detail where
  | num : Int → Detail
  | str : String → Detail
deriving DecidableEq

/-- One detected discrepancy (`ValidationIssue` dataclass). -/
structure ValidationIssue where
  issue_type : String
  severity : String
  block_index : Option Nat
  message : String
  details : Option (List (String × Detail)) := none
deriving DecidableEq

/-- One file's verdict (`ValidationResult` dataclass); `match_rate` is
modelled as an exact rational. -/
structure ValidationResult where
  filename : String
  target_language : String
  passed : Bool
  issues : List ValidationIssue
  en_block_count : Nat
  target_block_count : Nat
  match_rate : ℚ
deriving DecidableEq

/-- The `timestamp_mismatch` issue appended at 0-based position `i`. -/
def timestampIssue (i : Nat) (en_b tg_b : SubtitleBlock) : ValidationIssue :=
  { issue_type := "timestamp_mismatch"
    severity := "error"
    block_index := some (i + 1)
    message := "Timestamp mismatch at block " ++ toString (i + 1)
    details := some [("en_start", Detail.str en_b.start_time),
                     ("target_start", Detail.str tg_b.start_time)] }

/-- The `missing_dialogue` issue appended at 0-based position `i`. -/
def missingDialogueIssue (i : Nat) (en_b : SubtitleBlock) : ValidationIssue :=
  { issue_type := "missing_dialogue"
    severity := "error"
    block_index := some (i + 1)
    message := "Missing translation in block " ++ toString (i + 1)
    details := some [("en_text", Detail.str en_b.text_preview)] }

/-- The per-block loop of `validate_subtitle_pair`, carrying the
`issues` list and the `error_count` / `checked_blocks` counters; `i` is
the 0-based position of the head pair. -/
def validateLoop : List (SubtitleBlock × SubtitleBlock) → Nat →
    List ValidationIssue → Nat → Nat → List ValidationIssue × Nat × Nat
  | [], _, issues, error_count, checked_blocks => (issues, error_count, checked_blocks)
  | (en_b, tg_b) :: rest, i, issues, error_count, checked_blocks =>
    if en_b.has_text = false then
      validateLoop rest (i + 1) issues error_count checked_blocks
    else if en_b.start_time != tg_b.start_time || en_b.end_time != tg_b.end_time then
      validateLoop rest (i + 1) (issues ++ [timestampIssue i en_b tg_b])
        (error_count + 1) (checked_blocks + 1)
    else if tg_b.has_text = false then
      validateLoop rest (i + 1) (issues ++ [missingDialogueIssue i en_b])
        (error_count + 1) (checked_blocks + 1)
    else
      validateLoop rest (i + 1) issues error_count (checked_blocks + 1)

/-- `validate_subtitle_pair`: empty-candidate check, block-count check,
then the per-block loop and the match-rate computation. -/
def validate_subtitle_pair (en_blocks target_blocks : List SubtitleBlock)
    (filename target_lang : String) : ValidationResult :=
  if target_blocks.length = 0 then
    { filename := filename
      target_language := target_lang
      passed := false
      issues := [{ issue_type := "empty_file", severity := "error", block_index := none,
                   message := "Target subtitle file is empty" }]
      en_block_count := en_blocks.length
      target_block_count := 0
      match_rate := 0 }
  else if en_blocks.length ≠ target_blocks.length then
    { filename := filename
      target_language := target_lang
      passed := false
      issues := [{ issue_type := "block_count_mismatch", severity := "error",
                   block_index := none,
                   message := "Block count mismatch: " ++ toString en_blocks.length ++
                     " vs " ++ toString target_blocks.length,
                   details := some [("en_count", Detail.num en_blocks.length),
                                    ("target_count", Detail.num target_blocks.length),
                                    ("difference", Detail.num |(en_blocks.length : Int) - (target_blocks.length : Int)|)] }]
      en_block_count := en_blocks.length
      target_block_count := target_blocks.length
      match_rate := 0 }
  else
    let r := validateLoop (en_blocks.zip target_blocks) 0 [] 0 0
    let issues := r.1
    let error_count := r.2.1
    let checked_blocks := r.2.2
    let match_rate : ℚ :=
      if 0 < checked_blocks then
        ((checked_blocks : ℚ) - (error_count : ℚ)) / (checked_blocks : ℚ) * 100
      else 100
    { filename := filename
      target_language := target_lang
      passed := error_count == 0 && issues.length == 0
      issues := issues
      en_block_count := en_blocks.length
      target_block_count := target_blocks.length
      match_rate := match_rate }

/-- The issue (if any) that the per-block loop body produces for the
pair `p` at 0-based position `i`: silent reference blocks produce none,
then the timestamp check, then the missing-dialogue check. -/
def blockIssue (i : Nat) (p : SubtitleBlock × SubtitleBlock) : Option ValidationIssue :=
  if p.1.has_text = false then none
  else if p.1.start_time != p.2.start_time || p.1.end_time != p.2.end_time then
    some (timestampIssue i p.1 p.2)
  else if p.2.has_text = false then some (missingDialogueIssue i p.1)
  else none

/-- The issues the per-block loop emits on `ps`, head at position `i`. -/
def loopIssues : List (SubtitleBlock × SubtitleBlock) → Nat → List ValidationIssue
  | [], _ => []
  | p :: rest, i => (blockIssue i p).toList ++ loopIssues rest (i + 1)

/-- How many pairs the loop counts as checked: those whose reference
block has text. -/
def countChecked : List (SubtitleBlock × SubtitleBlock) → Nat
  | [] => 0
  | p :: rest => (if p.1.has_text then 1 else 0) + countChecked rest

/-!
Model of `srt_utils.parse_srt`, which runs `findall` of the regex
`(\d+)\s+(\d{2}:\d{2}:\d{2},\d{3}) --> (\d{2}:\d{2}:\d{2},\d{3})\s+(.*?)\s*(?=\n\d+\n|\Z)`
(with `re.S`) over the raw content.  The pattern is compiled here into
an explicit backtracking matcher: greedy pieces try longer splits
first, the lazy `(.*?)` tries shorter splits first, exactly as the
`re` engine does.
-/

/-- First successful application of `f` over the candidate list. -/
def firstSome {α β : Type} : List α → (α → Option β) → Option β
  | [], _ => none
  | x :: xs, f =>
    match f x with
    | some b => some b
    | none => firstSome xs f

/-- Candidate splits for a greedy `\d+`: nonempty digit runs from the
front, longest first. -/
def digitSplits (cs : List Char) : List (List Char × List Char) :=
  let n := (cs.takeWhile isDigitChar).length
  (List.range n).map (fun k => (cs.take (n - k), cs.drop (n - k)))

/-- Candidate splits for a greedy `\s+`: nonempty whitespace runs from
the front, longest first. -/
def spaceSplits1 (cs : List Char) : List (List Char × List Char) :=
  let n := (cs.takeWhile isSpaceChar).length
  (List.range n).map (fun k => (cs.take (n - k), cs.drop (n - k)))

/-- Candidate splits for a greedy `\s*`: whitespace runs from the front
including the empty one, longest first. -/
def spaceSplits0 (cs : List Char) : List (List Char × List Char) :=
  let n := (cs.takeWhile isSpaceChar).length
  (List.range (n + 1)).map (fun k => (cs.take (n - k), cs.drop (n - k)))

/-- Candidate splits for the lazy `(.*?)` under `re.S`: every front
segment, shortest first. -/
def lazySplits (cs : List Char) : List (List Char × List Char) :=
  (List.range (cs.length + 1)).map (fun k => (cs.take k, cs.drop k))

/-- The literal " --> " between the two timestamp groups. -/
def expectArrow : List Char → Option (List Char)
  | ' ' :: '-' :: '-' :: '>' :: ' ' :: r => some r
  | _ => none

/-- The lookahead `(?=\n\d+\n|\Z)`: end of input, or a newline, at
least one digit, and another newline. -/
def lookaheadOk (cs : List Char) : Bool :=
  match cs with
  | [] => true
  | '\n' :: r =>
    let d := r.takeWhile isDigitChar
    !d.isEmpty &&
      (match r.drop d.length with
       | '\n' :: _ => true
       | _ => false)
  | _ => false

/-- Attempt the whole pattern anchored at the head of `cs`; on success
returns the four captured groups and the remainder after the match. -/
def srtMatchAt (cs : List Char) :
    Option ((String × String × String × String) × List Char) :=
  firstSome (digitSplits cs) fun p1 =>
    firstSome (spaceSplits1 p1.2) fun p2 =>
      match parseTsGroup p2.2 with
      | none => none
      | some (g2, r3) =>
        match expectArrow r3 with
        | none => none
        | some r4 =>
          match parseTsGroup r4 with
          | none => none
          | some (g3, r5) =>
            firstSome (spaceSplits1 r5) fun p6 =>
              firstSome (lazySplits p6.2) fun p7 =>
                firstSome (spaceSplits0 p7.2) fun p8 =>
                  if lookaheadOk p8.2 then
                    some ((String.mk p1.1, g2, g3, String.mk p7.1), p8.2)
                  else none

/-- `findall`: try the pattern at each position left to right; after a
match, resume at its end.  Every match consumes at least one character
(the `\d+` group is nonempty), so `length + 1` steps always suffice and
the fuel never runs out. -/
def findallSrt : Nat → List Char → List (String × String × String × String)
  | 0, _ => []
  | _ + 1, [] => []
  | fuel + 1, c :: t =>
    match srtMatchAt (c :: t) with
    | some (g, rest) => g :: findallSrt fuel rest
    | none => findallSrt fuel t

/-- One parsed block of `srt_utils.parse_srt` (a Python dict with keys
`index`, `start`, `end`, `lines`). -/
structure SrtBlock where
  index : String
  start : String
  end_ : String
  lines : List String
deriving DecidableEq

/-- `srt_utils.parse_srt`: findall over the content, then each match
becomes a dict whose `lines` are the stripped non-blank lines of the
fourth group. -/
def parse_srt (content : String) : List SrtBlock :=
  let ms := findallSrt (content.toList.length + 1) content.toList
  ms.map fun g =>
    { index := g.1
      start := g.2.1
      end_ := g.2.2.1
      lines := (((splitLines g.2.2.2.toList).map String.mk).map pyStrip).filter
        (fun l => l != "") }

/-- Concrete fixture: a block with text. -/
def blkT : SubtitleBlock := ⟨none, "00:00:01,000", "00:00:02,000", ["Hi"], 1⟩

/-- Concrete fixture: a silent block with the same timestamps as `blkT`. -/
def blkS : SubtitleBlock := ⟨none, "00:00:01,000", "00:00:02,000", [], 1⟩

/-- Concrete fixture: a block with text whose start time differs from
`blkT`. -/
def blkM : SubtitleBlock := ⟨none, "00:00:01,500", "00:00:02,000", ["Hallo"], 1⟩

/-! Lemmas about the per-block loop. -/

theorem validateLoop_spec (ps : List (SubtitleBlock × SubtitleBlock)) :
    ∀ (i : Nat) (iss : List ValidationIssue) (ec cb : Nat),
    validateLoop ps i iss ec cb =
      (iss ++ loopIssues ps i, ec + (loopIssues ps i).length, cb + countChecked ps) := by
  induction ps with
  | nil => intro i iss ec cb; simp [validateLoop, loopIssues, countChecked]
  | cons p rest ih =>
    intro i iss ec cb
    obtain ⟨en_b, tg_b⟩ := p
    by_cases h1 : en_b.has_text
    · by_cases h2 : (en_b.start_time != tg_b.start_time || en_b.end_time != tg_b.end_time) = true
      · simp only [validateLoop, loopIssues, countChecked, blockIssue, h1, h2, ih]
        simp [Option.toList, Nat.add_assoc, Nat.add_comm 1]
      · by_cases h3 : tg_b.has_text
        · simp only [validateLoop, loopIssues, countChecked, blockIssue, h1, h2, h3, ih]
          simp [Option.toList, h3]
          omega
        · simp only [validateLoop, loopIssues, countChecked, blockIssue, h1, h2, h3, ih]
          simp [Option.toList, h3, Nat.add_assoc, Nat.add_comm 1]
    · simp only [validateLoop, loopIssues, countChecked, blockIssue,
        Bool.not_eq_true] at h1 ⊢
      simp [h1, ih]

theorem loopIssues_length_le_countChecked
    (ps : List (SubtitleBlock × SubtitleBlock)) :
    ∀ i, (loopIssues ps i).length ≤ countChecked ps := by
  induction ps with
  | nil => intro i; simp [loopIssues, countChecked]
  | cons p rest ih =>
    intro i
    simp only [loopIssues, countChecked, List.length_append]
    have hhd : (blockIssue i p).toList.length ≤ (if p.1.has_text then 1 else 0) := by
      by_cases h1 : p.1.has_text
      · simp only [blockIssue, h1, if_pos]
        cases h : (if (p.1.start_time != p.2.start_time || p.1.end_time != p.2.end_time) = true
            then some (timestampIssue i p.1 p.2)
            else if p.2.has_text = false then some (missingDialogueIssue i p.1) else none) with
        | none => simp [h]
        | some v => simp [h]
      · simp [blockIssue, h1]
    have := ih (i + 1)
    omega

theorem blockIssue_some_index (i : Nat) (p : SubtitleBlock × SubtitleBlock)
    (iss : ValidationIssue) (h : blockIssue i p = some iss) :
    iss.block_index = some (i + 1) := by
  unfold blockIssue at h
  by_cases h1 : p.1.has_text = false
  · simp [h1] at h
  · simp only [h1, if_false] at h
    by_cases h2 : (p.1.start_time != p.2.start_time || p.1.end_time != p.2.end_time) = true
    · simp only [h2, if_true] at h
      cases h
      rfl
    · simp only [h2, if_false] at h
      by_cases h3 : p.2.has_text = false
      · simp only [h3, if_true] at h
        cases h
        rfl
      · simp [h3] at h

theorem mem_loopIssues_exists (ps : List (SubtitleBlock × SubtitleBlock)) :
    ∀ (i0 : Nat) (iss : ValidationIssue), iss ∈ loopIssues ps i0 →
      ∃ j, ∃ hj : j < ps.length, blockIssue (i0 + j) (ps.get ⟨j, hj⟩) = some iss := by
  induction ps with
  | nil => intro i0 iss h; simp [loopIssues] at h
  | cons p rest ih =>
    intro i0 iss h
    simp only [loopIssues, List.mem_append] at h
    rcases h with h | h
    · refine ⟨0, by simp, ?_⟩
      cases hb : blockIssue i0 p with
      | none => simp [hb] at h
      | some v =>
        simp only [hb, Option.toList, List.mem_singleton] at h
        subst h
        simpa using hb
    · obtain ⟨j, hj, hb⟩ := ih (i0 + 1) iss h
      refine ⟨j + 1, by simpa using Nat.succ_lt_succ hj, ?_⟩
      have : i0 + (j + 1) = i0 + 1 + j := by omega
      rw [this]
      simpa using hb

theorem mem_loopIssues_index_gt (ps : List (SubtitleBlock × SubtitleBlock))
    (i0 : Nat) (iss : ValidationIssue) (h : iss ∈ loopIssues ps i0) :
    ∃ m, iss.block_index = some m ∧ i0 < m := by
  obtain ⟨j, hj, hb⟩ := mem_loopIssues_exists ps i0 iss h
  exact ⟨i0 + j + 1, blockIssue_some_index _ _ _ hb, by omega⟩

theorem countP_loopIssues_index_le_one (ps : List (SubtitleBlock × SubtitleBlock)) :
    ∀ (i0 n : Nat),
      (loopIssues ps i0).countP (fun iss => iss.block_index == some n) ≤ 1 := by
  induction ps with
  | nil => intro i0 n; simp [loopIssues]
  | cons p rest ih =>
    intro i0 n
    simp only [loopIssues, List.countP_append]
    by_cases hn : n = i0 + 1
    · have htail : (loopIssues rest (i0 + 1)).countP
          (fun iss => iss.block_index == some n) = 0 := by
        rw [List.countP_eq_zero]
        intro iss hmem
        obtain ⟨m, hm, hgt⟩ := mem_loopIssues_index_gt rest (i0 + 1) iss hmem
        simp only [hm, beq_iff_eq, Option.some.injEq]
        omega
      have hhd : (blockIssue i0 p).toList.countP
          (fun iss => iss.block_index == some n) ≤ 1 := by
        calc (blockIssue i0 p).toList.countP (fun iss => iss.block_index == some n)
            ≤ (blockIssue i0 p).toList.length := List.countP_le_length _
          _ ≤ 1 := by cases blockIssue i0 p <;> simp [Option.toList]
      omega
    · have hhd : (blockIssue i0 p).toList.countP
          (fun iss => iss.block_index == some n) = 0 := by
        rw [List.countP_eq_zero]
        intro iss hmem
        cases hb : blockIssue i0 p with
        | none => simp [hb] at hmem
        | some v =>
          simp only [hb, Option.toList, List.mem_singleton] at hmem
          subst hmem
          have := blockIssue_some_index _ _ _ hb
          simp only [this, beq_iff_eq, Option.some.injEq]
          omega
      have := ih (i0 + 1) n
      omega

theorem blockIssue_mem_loopIssues (ps : List (SubtitleBlock × SubtitleBlock)) :
    ∀ (i0 j : Nat) (hj : j < ps.length) (iss : ValidationIssue),
      blockIssue (i0 + j) (ps.get ⟨j, hj⟩) = some iss → iss ∈ loopIssues ps i0 := by
  induction ps with
  | nil => intro i0 j hj; simp at hj
  | cons p rest ih =>
    intro i0 j hj iss hb
    simp only [loopIssues, List.mem_append]
    cases j with
    | zero =>
      left
      simp only [Nat.add_zero] at hb
      simp only [List.get] at hb
      simp [hb, Option.toList]
    | succ j' =>
      right
      have hj' : j' < rest.length := by simpa using Nat.lt_of_succ_lt_succ hj
      refine ih (i0 + 1) j' hj' iss ?_
      have harith : i0 + 1 + j' = i0 + (j' + 1) := by omega
      rw [harith]
      simpa using hb

theorem loopIssues_nil_of_silent (ps : List (SubtitleBlock × SubtitleBlock))
    (h : ∀ p ∈ ps, p.1.has_text = false) : ∀ i0, loopIssues ps i0 = [] := by
  induction ps with
  | nil => intro i0; simp [loopIssues]
  | cons p rest ih =>
    intro i0
    have hp : p.1.has_text = false := h p (by simp)
    simp only [loopIssues, blockIssue, hp, if_pos rfl, Option.toList, List.nil_append]
    exact ih (fun q hq => h q (by simp [hq])) (i0 + 1)

theorem countChecked_zero_of_silent (ps : List (SubtitleBlock × SubtitleBlock))
    (h : ∀ p ∈ ps, p.1.has_text = false) : countChecked ps = 0 := by
  induction ps with
  | nil => simp [countChecked]
  | cons p rest ih =>
    have hp : p.1.has_text = false := h p (by simp)
    simp only [countChecked, hp]
    simpa using ih (fun q hq => h q (by simp [hq]))

/-- The loop path of `validate_subtitle_pair` (candidate nonempty,
counts equal), expressed through `loopIssues` / `countChecked`. -/
theorem validate_loop_path (en tg : List SubtitleBlock) (fn lang : String)
    (h1 : tg ≠ []) (h2 : en.length = tg.length) :
    validate_subtitle_pair en tg fn lang =
      { filename := fn
        target_language := lang
        passed := (loopIssues (en.zip tg) 0).length == 0
        issues := loopIssues (en.zip tg) 0
        en_block_count := en.length
        target_block_count := tg.length
        match_rate :=
          if 0 < countChecked (en.zip tg) then
            ((countChecked (en.zip tg) : ℚ) - ((loopIssues (en.zip tg) 0).length : ℚ)) /
              (countChecked (en.zip tg) : ℚ) * 100
          else 100 } := by
  have hlen : tg.length ≠ 0 := by
    intro h
    exact h1 (List.length_eq_zero.mp h)
  unfold validate_subtitle_pair
  rw [if_neg hlen, if_neg (by omega)]
  rw [validateLoop_spec]
  simp [Bool.and_self]

/-! Claim theorems. -/

/-- C1: For every reference sequence, candidate sequence, filename and
target language, the `ValidationResult` returned by
`validate_subtitle_pair` satisfies: `passed` is true if and only if the
`issues` list is empty. -/
theorem C1_passed_iff_issues_empty (en tg : List SubtitleBlock) (fn lang : String) :
    (validate_subtitle_pair en tg fn lang).passed = true ↔
      (validate_subtitle_pair en tg fn lang).issues = [] := by
  by_cases h1 : tg = []
  · subst h1
    simp [validate_subtitle_pair]
  · by_cases h2 : en.length = tg.length
    · rw [validate_loop_path en tg fn lang h1 h2]
      simp [List.length_eq_zero]
    · have hlen : tg.length ≠ 0 := fun h => h1 (List.length_eq_zero.mp h)
      unfold validate_subtitle_pair
      rw [if_neg hlen, if_pos h2]
      simp

/-- C1 witness: at a concrete perfectly matching pair, `passed` is true
and `issues` is empty. -/
theorem C1_witness : (validate_subtitle_pair [blkT] [blkT] "f.srt" "de").issues = [] :=
  (C1_passed_iff_issues_empty [blkT] [blkT] "f.srt" "de").mp (by decide)

/-- C2: For every reference and candidate with candidate non-empty and
differing lengths, `validate_subtitle_pair` returns exactly the one
`block_count_mismatch` issue carrying both counts and their absolute
difference, `match_rate = 0`, `passed = false`, and no per-block
issue. -/
theorem C2_block_count_mismatch (en tg : List SubtitleBlock) (fn lang : String)
    (h1 : tg ≠ []) (h2 : en.length ≠ tg.length) :
    validate_subtitle_pair en tg fn lang =
      { filename := fn
        target_language := lang
        passed := false
        issues := [{ issue_type := "block_count_mismatch", severity := "error",
                     block_index := none,
                     message := "Block count mismatch: " ++ toString en.length ++
                       " vs " ++ toString tg.length,
                     details := some [("en_count", Detail.num en.length),
                                      ("target_count", Detail.num tg.length),
                                      ("difference", Detail.num |(en.length : Int) - (tg.length : Int)|)] }]
        en_block_count := en.length
        target_block_count := tg.length
        match_rate := 0 } := by
  have hlen : tg.length ≠ 0 := fun h => h1 (List.length_eq_zero.mp h)
  unfold validate_subtitle_pair
  rw [if_neg hlen, if_pos h2]

/-- C2 witness: three reference blocks against two candidate blocks
give the single mismatch issue with difference 1 and zero match rate,
whatever the blocks contain. -/
theorem C2_witness :
    (validate_subtitle_pair [blkT, blkM, blkS] [blkT, blkT] "f.srt" "de").issues =
      [{ issue_type := "block_count_mismatch", severity := "error", block_index := none,
         message := "Block count mismatch: 3 vs 2",
         details := some [("en_count", Detail.num 3), ("target_count", Detail.num 2),
                          ("difference", Detail.num 1)] }] ∧
    (validate_subtitle_pair [blkT, blkM, blkS] [blkT, blkT] "f.srt" "de").match_rate = 0 ∧
    (validate_subtitle_pair [blkT, blkM, blkS] [blkT, blkT] "f.srt" "de").passed = false := by
  have h := C2_block_count_mismatch [blkT, blkM, blkS] [blkT, blkT] "f.srt" "de"
    (by decide) (by decide)
  rw [h]
  refine ⟨?_, rfl, rfl⟩
  decide

/-- C3: For every reference sequence (including the empty one),
`validate_subtitle_pair` on an empty candidate returns `passed = false`,
exactly one `empty_file` issue with no block index, `match_rate = 0`,
`target_block_count = 0`, and `en_block_count` the reference length. -/
theorem C3_empty_candidate (en : List SubtitleBlock) (fn lang : String) :
    validate_subtitle_pair en [] fn lang =
      { filename := fn
        target_language := lang
        passed := false
        issues := [{ issue_type := "empty_file", severity := "error", block_index := none,
                     message := "Target subtitle file is empty" }]
        en_block_count := en.length
        target_block_count := 0
        match_rate := 0 } := rfl

/-- C3 witness: the empty-candidate result at a concrete two-block
reference. -/
theorem C3_witness :
    validate_subtitle_pair [blkT, blkS] [] "f.srt" "de" =
      { filename := "f.srt"
        target_language := "de"
        passed := false
        issues := [{ issue_type := "empty_file", severity := "error", block_index := none,
                     message := "Target subtitle file is empty" }]
        en_block_count := 2
        target_block_count := 0
        match_rate := 0 } :=
  C3_empty_candidate [blkT, blkS] "f.srt" "de"

/-- C4: When block counts match, a reference block with text whose
candidate timestamps differ yields a `timestamp_mismatch` issue at
`block_index = i + 1` (carrying both start times in its details), never
a `missing_dialogue` issue at that position, and no position ever
yields more than one issue. -/
theorem C4_timestamp_mismatch_single_issue (en tg : List SubtitleBlock)
    (fn lang : String) (hlen : en.length = tg.length) (i : Nat)
    (hi : i < en.length) (hi2 : i < tg.length)
    (hht : (en.get ⟨i, hi⟩).has_text = true)
    (hts : ((en.get ⟨i, hi⟩).start_time != (tg.get ⟨i, hi2⟩).start_time ||
            (en.get ⟨i, hi⟩).end_time != (tg.get ⟨i, hi2⟩).end_time) = true) :
    timestampIssue i (en.get ⟨i, hi⟩) (tg.get ⟨i, hi2⟩) ∈
        (validate_subtitle_pair en tg fn lang).issues ∧
      (∀ iss ∈ (validate_subtitle_pair en tg fn lang).issues,
        iss.block_index = some (i + 1) → iss.issue_type ≠ "missing_dialogue") ∧
      (∀ n, ((validate_subtitle_pair en tg fn lang).issues.countP
        (fun iss => iss.block_index == some n)) ≤ 1) := by
  have h1 : tg ≠ [] := by
    intro h
    subst h
    simp at hi2
  rw [validate_loop_path en tg fn lang h1 hlen]
  have hzi : i < (en.zip tg).length := by
    rw [List.length_zip]
    omega
  have hget : (en.zip tg).get ⟨i, hzi⟩ = (en.get ⟨i, hi⟩, tg.get ⟨i, hi2⟩) := by
    simp [List.getElem_zip]
  have hbi : blockIssue (0 + i) ((en.zip tg).get ⟨i, hzi⟩) =
      some (timestampIssue i (en.get ⟨i, hi⟩) (tg.get ⟨i, hi2⟩)) := by
    rw [Nat.zero_add, hget]
    unfold blockIssue
    rw [if_neg (by simp only [Bool.not_eq_false]; exact hht), if_pos hts]
  refine ⟨?_, ?_, ?_⟩
  · exact blockIssue_mem_loopIssues (en.zip tg) 0 i hzi _ hbi
  · intro iss hmem hbidx
    obtain ⟨j, hj, hbj⟩ := mem_loopIssues_exists (en.zip tg) 0 iss hmem
    have hidx := blockIssue_some_index _ _ _ hbj
    rw [hbidx] at hidx
    have hij : i = j := by
      injection hidx with h'
      omega
    subst hij
    have hsame : some iss =
        some (timestampIssue i (en.get ⟨i, hi⟩) (tg.get ⟨i, hi2⟩)) :=
      hbj.symm.trans hbi
    injection hsame with h'
    rw [h']
    simp [timestampIssue]
  · intro n
    simpa using countP_loopIssues_index_le_one (en.zip tg) 0 n

/-- C4 witness: one non-silent reference block against a candidate with
a shifted start time produces the timestamp-mismatch issue at block 1
and nothing at that position is a missing-dialogue issue. -/
theorem C4_witness :
    timestampIssue 0 blkT blkM ∈
      (validate_subtitle_pair [blkT] [blkM] "f.srt" "de").issues ∧
    (∀ iss ∈ (validate_subtitle_pair [blkT] [blkM] "f.srt" "de").issues,
      iss.block_index = some 1 → iss.issue_type ≠ "missing_dialogue") :=
  ⟨(C4_timestamp_mismatch_single_issue [blkT] [blkM] "f.srt" "de" rfl 0
      (by decide) (by decide) (by decide) (by decide)).1,
   (C4_timestamp_mismatch_single_issue [blkT] [blkM] "f.srt" "de" rfl 0
      (by decide) (by decide) (by decide) (by decide)).2.1⟩

/-- C5: A silent reference block is skipped entirely by the per-block
loop (no issue, no counter change); consequently an all-silent
reference of the same non-zero length as the candidate yields
`match_rate = 100` and `passed = true`. -/
theorem C5_silent_reference_skipped :
    (∀ (en_b tg_b : SubtitleBlock) (rest : List (SubtitleBlock × SubtitleBlock))
        (i : Nat) (iss : List ValidationIssue) (ec cb : Nat),
      en_b.has_text = false →
        validateLoop ((en_b, tg_b) :: rest) i iss ec cb =
          validateLoop rest (i + 1) iss ec cb) ∧
    (∀ (en tg : List SubtitleBlock) (fn lang : String), tg ≠ [] →
      en.length = tg.length → (∀ b ∈ en, b.has_text = false) →
        (validate_subtitle_pair en tg fn lang).match_rate = 100 ∧
        (validate_subtitle_pair en tg fn lang).passed = true) := by
  constructor
  · intro en_b tg_b rest i iss ec cb h
    simp [validateLoop, h]
  · intro en tg fn lang h1 h2 hsil
    have hzip : ∀ p ∈ en.zip tg, p.1.has_text = false := by
      intro p hp
      obtain ⟨a, b⟩ := p
      exact hsil a (List.of_mem_zip hp).1
    rw [validate_loop_path en tg fn lang h1 h2]
    rw [loopIssues_nil_of_silent _ hzip, countChecked_zero_of_silent _ hzip]
    simp

/-- C5 witness: an all-silent one-block reference against a candidate
with different timestamps and text still passes with full match rate. -/
theorem C5_witness :
    (validate_subtitle_pair [blkS] [blkM] "f.srt" "de").match_rate = 100 ∧
    (validate_subtitle_pair [blkS] [blkM] "f.srt" "de").passed = true :=
  C5_silent_reference_skipped.2 [blkS] [blkM] "f.srt" "de" (by decide) rfl (by decide)

/-- C6: On the per-block path the match rate is
`(checked - errors) / checked * 100` when some block was checked and
`100` when none was; and on every input and every return path the match
rate lies in `[0, 100]`. -/
theorem C6_match_rate_formula_and_bounds :
    (∀ (en tg : List SubtitleBlock) (fn lang : String), tg ≠ [] →
      en.length = tg.length →
      (0 < (validateLoop (en.zip tg) 0 [] 0 0).2.2 →
        (validate_subtitle_pair en tg fn lang).match_rate =
          (((validateLoop (en.zip tg) 0 [] 0 0).2.2 : ℚ) -
              ((validateLoop (en.zip tg) 0 [] 0 0).2.1 : ℚ)) /
            ((validateLoop (en.zip tg) 0 [] 0 0).2.2 : ℚ) * 100) ∧
      ((validateLoop (en.zip tg) 0 [] 0 0).2.2 = 0 →
        (validate_subtitle_pair en tg fn lang).match_rate = 100)) ∧
    (∀ (en tg : List SubtitleBlock) (fn lang : String),
      0 ≤ (validate_subtitle_pair en tg fn lang).match_rate ∧
        (validate_subtitle_pair en tg fn lang).match_rate ≤ 100) := by
  have hcomp : ∀ (en tg : List SubtitleBlock),
      (validateLoop (en.zip tg) 0 [] 0 0).2.1 = (loopIssues (en.zip tg) 0).length ∧
      (validateLoop (en.zip tg) 0 [] 0 0).2.2 = countChecked (en.zip tg) := by
    intro en tg
    rw [validateLoop_spec]
    simp
  constructor
  · intro en tg fn lang h1 h2
    obtain ⟨hc1, hc2⟩ := hcomp en tg
    rw [hc1, hc2, validate_loop_path en tg fn lang h1 h2]
    constructor
    · intro hpos
      simp only
      rw [if_pos hpos]
    · intro hzero
      simp only
      rw [if_neg (by omega)]
  · intro en tg fn lang
    by_cases h1 : tg = []
    · subst h1
      norm_num [validate_subtitle_pair]
    · by_cases h2 : en.length = tg.length
      · rw [validate_loop_path en tg fn lang h1 h2]
        simp only
        by_cases hpos : 0 < countChecked (en.zip tg)
        · rw [if_pos hpos]
          have he : (loopIssues (en.zip tg) 0).length ≤ countChecked (en.zip tg) :=
            loopIssues_length_le_countChecked (en.zip tg) 0
          have hcq : (0 : ℚ) < (countChecked (en.zip tg) : ℚ) := by
            exact_mod_cast hpos
          have heq : ((loopIssues (en.zip tg) 0).length : ℚ) ≤
              (countChecked (en.zip tg) : ℚ) := by exact_mod_cast he
          have heq0 : (0 : ℚ) ≤ ((loopIssues (en.zip tg) 0).length : ℚ) := by
            positivity
          have h01 : ((countChecked (en.zip tg) : ℚ) -
              ((loopIssues (en.zip tg) 0).length : ℚ)) /
              (countChecked (en.zip tg) : ℚ) ≤ 1 := by
            rw [div_le_one hcq]
            linarith
          have h00 : (0 : ℚ) ≤ ((countChecked (en.zip tg) : ℚ) -
              ((loopIssues (en.zip tg) 0).length : ℚ)) /
              (countChecked (en.zip tg) : ℚ) :=
            div_nonneg (by linarith) hcq.le
          constructor
          · have := mul_nonneg h00 (by norm_num : (0:ℚ) ≤ 100)
            linarith
          · have := mul_le_mul_of_nonneg_right h01 (by norm_num : (0:ℚ) ≤ 100)
            linarith
        · rw [if_neg hpos]
          norm_num
      · have hlen : tg.length ≠ 0 := fun h => h1 (List.length_eq_zero.mp h)
        unfold validate_subtitle_pair
        rw [if_neg hlen, if_pos h2]
        norm_num

/-- C6 witness: one checked block with one error gives the formula
value, and the rate is nonnegative. -/
theorem C6_witness :
    (validate_subtitle_pair [blkT] [blkM] "f.srt" "de").match_rate =
      (((validateLoop ([blkT].zip [blkM]) 0 [] 0 0).2.2 : ℚ) -
          ((validateLoop ([blkT].zip [blkM]) 0 [] 0 0).2.1 : ℚ)) /
        ((validateLoop ([blkT].zip [blkM]) 0 [] 0 0).2.2 : ℚ) * 100 ∧
    0 ≤ (validate_subtitle_pair [blkT] [blkM] "f.srt" "de").match_rate :=
  ⟨(C6_match_rate_formula_and_bounds.1 [blkT] [blkM] "f.srt" "de"
      (by decide) rfl).1 (by decide),
   (C6_match_rate_formula_and_bounds.2 [blkT] [blkM] "f.srt" "de").1⟩

/-- C7: `passed` is true exactly when the match rate is `100`, and any
result with match rate below `100` has a nonempty issue list and
`passed = false`. -/
theorem C7_passed_iff_match_rate_100 (en tg : List SubtitleBlock)
    (fn lang : String) :
    ((validate_subtitle_pair en tg fn lang).passed = true ↔
      (validate_subtitle_pair en tg fn lang).match_rate = 100) ∧
    ((validate_subtitle_pair en tg fn lang).match_rate < 100 →
      (validate_subtitle_pair en tg fn lang).issues ≠ [] ∧
      (validate_subtitle_pair en tg fn lang).passed = false) := by
  by_cases h1 : tg = []
  · subst h1
    refine ⟨by norm_num [validate_subtitle_pair], fun _ =>
      ⟨by norm_num [validate_subtitle_pair], by norm_num [validate_subtitle_pair]⟩⟩
  · by_cases h2 : en.length = tg.length
    · rw [validate_loop_path en tg fn lang h1 h2]
      simp only
      have he : (loopIssues (en.zip tg) 0).length ≤ countChecked (en.zip tg) :=
        loopIssues_length_le_countChecked (en.zip tg) 0
      by_cases hpos : 0 < countChecked (en.zip tg)
      · rw [if_pos hpos]
        have hcq : (0 : ℚ) < (countChecked (en.zip tg) : ℚ) := by
          exact_mod_cast hpos
        have key1 : (loopIssues (en.zip tg) 0).length = 0 →
            ((countChecked (en.zip tg) : ℚ) -
                ((loopIssues (en.zip tg) 0).length : ℚ)) /
              (countChecked (en.zip tg) : ℚ) * 100 = 100 := by
          intro h0
          rw [h0]
          push_cast
          rw [sub_zero, div_self hcq.ne']
          norm_num
        have key2 : (loopIssues (en.zip tg) 0).length ≠ 0 →
            ((countChecked (en.zip tg) : ℚ) -
                ((loopIssues (en.zip tg) 0).length : ℚ)) /
              (countChecked (en.zip tg) : ℚ) * 100 < 100 := by
          intro hne
          have he1 : (0 : ℚ) < ((loopIssues (en.zip tg) 0).length : ℚ) := by
            exact_mod_cast Nat.pos_of_ne_zero hne
          have hlt : ((countChecked (en.zip tg) : ℚ) -
              ((loopIssues (en.zip tg) 0).length : ℚ)) /
              (countChecked (en.zip tg) : ℚ) < 1 := by
            rw [div_lt_one hcq]
            linarith
          have := mul_lt_mul_of_pos_right hlt (by norm_num : (0:ℚ) < 100)
          linarith
        constructor
        · constructor
          · intro hp
            have h0 : (loopIssues (en.zip tg) 0).length = 0 := by
              simpa using hp
            exact key1 h0
          · intro hr
            by_cases h0 : (loopIssues (en.zip tg) 0).length = 0
            · simpa using h0
            · exact absurd hr (by have := key2 h0; exact ne_of_lt this)
        · intro hlt
          have h0 : (loopIssues (en.zip tg) 0).length ≠ 0 := by
            intro h0
            rw [key1 h0] at hlt
            exact lt_irrefl _ hlt
          refine ⟨?_, by simpa using h0⟩
          intro hnil
          exact h0 (by rw [hnil]; rfl)
      · rw [if_neg hpos]
        have h0 : (loopIssues (en.zip tg) 0).length = 0 := by omega
        constructor
        · constructor
          · intro _
            rfl
          · intro _
            simpa using h0
        · intro hlt
          exact absurd hlt (lt_irrefl _)
    · have hlen : tg.length ≠ 0 := fun h => h1 (List.length_eq_zero.mp h)
      unfold validate_subtitle_pair
      rw [if_neg hlen, if_pos h2]
      refine ⟨by norm_num, fun _ => ⟨by simp, rfl⟩⟩

/-- C7 witness: a missing-dialogue error drops the rate below 100, the
issue list is nonempty and the pair fails. -/
theorem C7_witness :
    (validate_subtitle_pair [blkT] [blkS] "f.srt" "de").issues ≠ [] ∧
    (validate_subtitle_pair [blkT] [blkS] "f.srt" "de").passed = false := by
  apply (C7_passed_iff_match_rate_100 [blkT] [blkS] "f.srt" "de").2
  rw [validate_loop_path [blkT] [blkS] "f.srt" "de" (by decide) rfl]
  have h1 : (loopIssues ([blkT].zip [blkS]) 0).length = 1 := by decide
  have h2 : countChecked ([blkT].zip [blkS]) = 1 := by decide
  simp only [h1, h2]
  norm_num

/-- C8: Parsing a timestamp line with no preceding numeric index line,
followed by one text line, yields exactly one block with `index = none`
and `text_lines = ["Hello"]`. -/
theorem C8_index_optional :
    parse_srt_file "00:00:01,000 --> 00:00:02,000\nHello\n" =
      [{ index := none
         start_time := "00:00:01,000"
         end_time := "00:00:02,000"
         text_lines := ["Hello"]
         line_number := 1 }] := by decide

/-- C9: `parse_srt_file` is a total function: for every input text it
terminates and returns a (possibly empty) list of blocks; there is no
exception path.  Totality holds by construction: the scan loop is
structurally recursive on the line list, mirroring the Python cursor
that advances at least one line per iteration. -/
theorem C9_parser_total (text : String) :
    ∃ bs : List SubtitleBlock, parse_srt_file text = bs :=
  ⟨parse_srt_file text, rfl⟩

/-- C9 witness: totality instantiated at the empty input. -/
theorem C9_witness : ∃ bs : List SubtitleBlock, parse_srt_file "" = bs :=
  C9_parser_total ""

/-- C10: The two parsers disagree on a well-formed block that lacks a
leading numeric index line: the regex parser `parse_srt` returns no
blocks (its pattern demands `(\d+)` before the timestamps) while the
core parser `parse_srt_file` returns one. -/
theorem C10_parsers_not_equivalent :
    parse_srt "00:00:01,000 --> 00:00:02,000\nHello\n" = [] ∧
    (parse_srt_file "00:00:01,000 --> 00:00:02,000\nHello\n").length = 1 := by decide
